import Mathlib

/-!
# Verification of the atk-esp32 MCP tool server and device state machine

Shallow embedding of `src/main/mcp_server.cc` (tool registry, paginated
`tools/list`, argument binding for `tools/call`, JSON-RPC envelope
validation) and `src/main/device_state_machine.cc` (transition table and
`TransitionTo`).

Modelling conventions:
* C++ `std::string` payloads are embedded as `List Char` (length, `back()`,
  `pop_back()` become `List.length`, `List.getLast?`, `List.dropLast`);
  names and cursors stay `String`.
* cJSON values are the inductive `Json`; a nullable `cJSON*` is `Option Json`.
* Sending a reply is modelled by returning a `Reply` value; scheduling a
  closure onto the main execution context is modelled by the
  `CallOutcome.scheduled` constructor carrying the bound arguments.
* The listener broadcast of the state machine is modelled by the list of
  `(old, new)` notification events produced by a transition.
-/

/-! ## Device state machine (`src/main/device_state_machine.cc`, `device_state.h`) -/

/-- Enumeration from `device_state.h` (same order as the C++ enum). -/
inductive DeviceState where
  | unknown
  | starting
  | wifiConfiguring
  | idle
  | connecting
  | listening
  | speaking
  | upgrading
  | activating
  | audioTesting
  | fatalError
deriving DecidableEq, BEq, Fintype

/-- `DeviceStateMachine::IsValidTransition` (device_state_machine.cc:34-92). -/
def IsValidTransition (fromState toState : DeviceState) : Bool :=
  if fromState = toState then
    true
  else
    match fromState with
    | DeviceState.unknown => toState == DeviceState.starting
    | DeviceState.starting => toState == DeviceState.wifiConfiguring ||
        toState == DeviceState.activating
    | DeviceState.wifiConfiguring => toState == DeviceState.activating ||
        toState == DeviceState.audioTesting
    | DeviceState.audioTesting => toState == DeviceState.wifiConfiguring
    | DeviceState.activating => toState == DeviceState.upgrading ||
        toState == DeviceState.idle ||
        toState == DeviceState.wifiConfiguring
    | DeviceState.upgrading => toState == DeviceState.idle ||
        toState == DeviceState.activating
    | DeviceState.idle => toState == DeviceState.connecting ||
        toState == DeviceState.listening ||
        toState == DeviceState.speaking ||
        toState == DeviceState.activating ||
        toState == DeviceState.upgrading ||
        toState == DeviceState.wifiConfiguring
    | DeviceState.connecting => toState == DeviceState.idle ||
        toState == DeviceState.listening
    | DeviceState.listening => toState == DeviceState.speaking ||
        toState == DeviceState.idle
    | DeviceState.speaking => toState == DeviceState.listening ||
        toState == DeviceState.idle
    | DeviceState.fatalError => false

/-- `DeviceStateMachine::TransitionTo` (device_state_machine.cc:98-121).
Returns `(result, state after the call, notification events fired)`;
`NotifyStateChange` broadcasts a single `(old, new)` event to the listeners,
modelled by the third component. -/
def TransitionTo (current_state new_state : DeviceState) :
    Bool × DeviceState × List (DeviceState × DeviceState) :=
  let old_state := current_state
  if old_state = new_state then
    (true, old_state, [])
  else if !(IsValidTransition old_state new_state) then
    (false, old_state, [])
  else
    (true, new_state, [(old_state, new_state)])

/-- The fixed transition table exactly as the spec's glossary enumerates it
(spec-side description, to be compared against `IsValidTransition`). -/
def deviceTransitionTable : List (DeviceState × DeviceState) :=
  [ (DeviceState.unknown, DeviceState.starting),
    (DeviceState.starting, DeviceState.wifiConfiguring),
    (DeviceState.starting, DeviceState.activating),
    (DeviceState.wifiConfiguring, DeviceState.activating),
    (DeviceState.wifiConfiguring, DeviceState.audioTesting),
    (DeviceState.audioTesting, DeviceState.wifiConfiguring),
    (DeviceState.activating, DeviceState.upgrading),
    (DeviceState.activating, DeviceState.idle),
    (DeviceState.activating, DeviceState.wifiConfiguring),
    (DeviceState.upgrading, DeviceState.idle),
    (DeviceState.upgrading, DeviceState.activating),
    (DeviceState.idle, DeviceState.connecting),
    (DeviceState.idle, DeviceState.listening),
    (DeviceState.idle, DeviceState.speaking),
    (DeviceState.idle, DeviceState.activating),
    (DeviceState.idle, DeviceState.upgrading),
    (DeviceState.idle, DeviceState.wifiConfiguring),
    (DeviceState.connecting, DeviceState.idle),
    (DeviceState.connecting, DeviceState.listening),
    (DeviceState.listening, DeviceState.speaking),
    (DeviceState.listening, DeviceState.idle),
    (DeviceState.speaking, DeviceState.listening),
    (DeviceState.speaking, DeviceState.idle) ]

/-! ## JSON values (cJSON) -/

/-- A parsed cJSON value; numbers carry `valueint` (the binder and the
envelope only ever read `valueint`). -/
inductive Json where
  | null
  | bool (b : Bool)
  | num (n : Int)
  | str (s : String)
  | arr (items : List Json)
  | obj (fields : List (String × Json))

/-- First field with the given key (`cJSON_GetObjectItem` on an object). -/
def jsonLookup : List (String × Json) → String → Option Json
  | [], _ => none
  | (k, v) :: rest, key => if k = key then some v else jsonLookup rest key

/-- `cJSON_GetObjectItem`: `none` models a NULL result (absent field or
non-object argument). -/
def getObjectItem (j : Json) (key : String) : Option Json :=
  match j with
  | Json.obj fields => jsonLookup fields key
  | _ => none

/-- `cJSON_GetObjectItem` applied to a possibly-NULL `cJSON*`. -/
def getObjectItemOpt (j : Option Json) (key : String) : Option Json :=
  match j with
  | some v => getObjectItem v key
  | none => none

/-- `value != NULL && cJSON_IsBool(value)`. -/
def jsonIsBool : Option Json → Bool
  | some (Json.bool _) => true
  | _ => false

/-- `value != NULL && cJSON_IsNumber(value)`. -/
def jsonIsNumber : Option Json → Bool
  | some (Json.num _) => true
  | _ => false

/-- `value != NULL && cJSON_IsString(value)`. -/
def jsonIsString : Option Json → Bool
  | some (Json.str _) => true
  | _ => false

/-- `value != NULL && cJSON_IsObject(value)`. -/
def jsonIsObj : Option Json → Bool
  | some (Json.obj _) => true
  | _ => false

/-- `value->valueint == 1` for a value already known to be a cJSON bool. -/
def jsonGetBool : Option Json → Bool
  | some (Json.bool b) => b
  | _ => false

/-- `value->valueint` for a value already known to be a number. -/
def jsonGetInt : Option Json → Int
  | some (Json.num n) => n
  | _ => 0

/-- `value->valuestring` for a value already known to be a string. -/
def jsonGetString : Option Json → String
  | some (Json.str s) => s
  | _ => ""

/-! ## Property model

The `Property` / `PropertyList` classes are declared in `mcp_server.h`,
which is not among the provided sources; the parts of their behaviour the
server code relies on are modelled from the spec (sections 3 and 4.1).
-/

/-- Property types (`kPropertyTypeBoolean` / `Integer` / `String`). -/
inductive PropertyType where
  | boolean
  | integer
  | string
deriving DecidableEq, BEq

/-- A typed property value (spec section 3: tagged variant, never coerced). -/
inductive PropValue where
  | vBool (b : Bool)
  | vInt (n : Int)
  | vString (s : String)
deriving DecidableEq

/-- Modelled from the spec: a `Property` (mcp_server.h, not under src/) has a
name, a type, an optional default, an optional integer range, and an optional
bound value; schema templates start unbound. -/
structure Property where
  name : String
  type : PropertyType
  defaultValue : Option PropValue := none
  minValue : Option Int := none
  maxValue : Option Int := none
  value : Option PropValue := none
deriving DecidableEq

/-- `Property::has_default_value()` (accessor on the data above). -/
def Property.has_default_value (p : Property) : Bool :=
  p.defaultValue.isSome

/-- Modelled from the spec: `Property::set_value<bool>` binds a boolean. -/
def Property.set_value_bool (p : Property) (v : Bool) : Property :=
  { p with value := some (PropValue.vBool v) }

/-- Modelled from the spec: `Property::set_value<int>` binds an integer,
raising a binding exception surfaced by argument name when the value lies
outside the declared numeric range (spec section 4.5). -/
def Property.set_value_int (p : Property) (v : Int) : Except String Property :=
  if (match p.minValue with | some m => decide (v < m) | none => false : Bool) then
    Except.error ("Invalid value for property: " ++ p.name)
  else if (match p.maxValue with | some m => decide (v > m) | none => false : Bool) then
    Except.error ("Invalid value for property: " ++ p.name)
  else
    Except.ok { p with value := some (PropValue.vInt v) }

/-- Modelled from the spec: `Property::set_value<std::string>` binds a string. -/
def Property.set_value_string (p : Property) (v : String) : Property :=
  { p with value := some (PropValue.vString v) }

/-- Modelled from the spec: `Property::value<T>()` as seen by a tool handler —
the bound value if one was set, otherwise the default ("binds the default",
spec sections 4.5 and 8). -/
def Property.effectiveValue (p : Property) : Option PropValue :=
  match p.value with
  | some v => some v
  | none => p.defaultValue

/-! ## Tool and registry -/

/-- An `McpTool`. Its serialized form `to_json()` is produced by code in the
missing `mcp_server.h`; the lister treats it as an opaque string, so it is
carried as the field `toJson` here. -/
structure McpTool where
  name : String
  description : String
  properties : List Property
  userOnly : Bool
  toJson : List Char
deriving DecidableEq

/-- `McpServer::AddTool(McpTool*)` (mcp_server.cc:332-341): a duplicate name
is a no-op, otherwise the tool is appended. -/
def AddTool (tools : List McpTool) (tool : McpTool) : List McpTool :=
  if tools.any (fun t => t.name == tool.name) then
    tools
  else
    tools ++ [tool]

/-! ## Replies -/

/-- A JSON-RPC reply as emitted by `ReplyResult` / `ReplyError`
(mcp_server.cc:467-482): the echoed id plus either the result payload or the
error message. -/
inductive Reply where
  | result (id : Int) (payload : List Char)
  | error (id : Int) (message : String)
deriving DecidableEq

/-! ## Paginated lister (`McpServer::GetToolsList`, mcp_server.cc:484-538) -/

/-- `const int max_payload_size = 8000`. -/
def maxPayloadSize : Nat := 8000

/-- The initial payload `"{\"tools\":["` . -/
def jsonOpen : List Char := "\x7b\"tools\":[".toList

/-- The while-loop of `GetToolsList` (mcp_server.cc:492-518).
State: remaining registry, `found_cursor`, accumulated `json`.
Returns `(json, next_cursor, included tools)`; the third component
instruments which tools' serializations were appended to `json`. -/
def listLoop (cursor : String) (list_user_only_tools : Bool) :
    List McpTool → Bool → List Char → List Char × String × List McpTool
  | [], _, json => (json, "", [])
  | t :: rest, found_cursor, json =>
    if !found_cursor && t.name != cursor then
      listLoop cursor list_user_only_tools rest found_cursor json
    else if !list_user_only_tools && t.userOnly then
      listLoop cursor list_user_only_tools rest true json
    else
      let tool_json := t.toJson ++ [',']
      if json.length + tool_json.length + 30 > maxPayloadSize then
        (json, t.name, [])
      else
        let r := listLoop cursor list_user_only_tools rest true (json ++ tool_json)
        (r.1, r.2.1, t :: r.2.2)

/-- `McpServer::GetToolsList` (mcp_server.cc:484-538). Returns the reply
together with the instrumented list of included tools and the final
`next_cursor` value. -/
def GetToolsList (tools : List McpTool) (id : Int) (cursor : String)
    (list_user_only_tools : Bool) : Reply × List McpTool × String :=
  let r := listLoop cursor list_user_only_tools tools (cursor == "") jsonOpen
  let json := r.1
  let next_cursor := r.2.1
  let included := r.2.2
  let json := if json.getLast? = some ',' then json.dropLast else json
  if json.getLast? = some '[' ∧ tools ≠ [] then
    (Reply.error id ("Failed to add tool " ++ next_cursor ++
        " because of payload size limit"), [], next_cursor)
  else if next_cursor == "" then
    (Reply.result id (json ++ "]\x7d".toList), included, next_cursor)
  else
    (Reply.result id (json ++ "],\"nextCursor\":\"".toList ++
        next_cursor.toList ++ "\"\x7d".toList), included, next_cursor)

/-- Visibility filter of the lister: a tool passes when user-only tools were
requested or it is not user-only (complement of the skip at
mcp_server.cc:503). -/
def elig (list_user_only_tools : Bool) (t : McpTool) : Bool :=
  list_user_only_tools || !t.userOnly

/-- Concatenated serializations (each followed by `','`) of a list of tools,
as the loop appends them to `json`. -/
def flatJson : List McpTool → List Char
  | [] => []
  | t :: rest => (t.toJson ++ [',']) ++ flatJson rest

/-- Well-formedness of a tool's serialization assumed by the pagination
claims: it fits a fresh reply's budget on its own, is non-empty, and does not
end in `'['` (a real `to_json()` is a JSON object ending in a brace). -/
def ToolFits (t : McpTool) : Prop :=
  jsonOpen.length + (t.toJson ++ [',']).length + 30 ≤ maxPayloadSize ∧
  t.toJson ≠ [] ∧ t.toJson.getLast? ≠ some '['

instance (t : McpTool) : Decidable (ToolFits t) := by
  unfold ToolFits
  infer_instance

/-- Chained `tools/list` calls: follow `nextCursor` until a reply omits it,
collecting the tools of each page; `none` on an error reply or when the fuel
runs out. -/
def chainCalls (tools : List McpTool) (list_user_only_tools : Bool) (id : Int) :
    Nat → String → Option (List McpTool)
  | 0, _ => none
  | fuel + 1, cursor =>
    match GetToolsList tools id cursor list_user_only_tools with
    | (Reply.error _ _, _, _) => none
    | (Reply.result _ _, included, next_cursor) =>
      if next_cursor = "" then
        some included
      else
        (chainCalls tools list_user_only_tools id fuel next_cursor).map
          (fun laterPages => included ++ laterPages)

/-! ## Argument binder (`McpServer::DoToolCall`, mcp_server.cc:540-592) -/

/-- Body of the binding loop (mcp_server.cc:554-575) for one schema property:
look up a same-named entry of the exactly matching wire type, bind it
(`set_value`, which may raise a range exception), and fail with
`"Missing valid argument: <name>"` when nothing matched and the property has
no default. -/
def bindProperty (tool_arguments : Option Json) (p : Property) :
    Except String Property := do
  let pair ←
    (match tool_arguments with
     | some (Json.obj fields) =>
       let value := jsonLookup fields p.name
       if p.type == PropertyType.boolean && jsonIsBool value then
         Except.ok (p.set_value_bool (jsonGetBool value), true)
       else if p.type == PropertyType.integer && jsonIsNumber value then
         (p.set_value_int (jsonGetInt value)).map (fun q => (q, true))
       else if p.type == PropertyType.string && jsonIsString value then
         Except.ok (p.set_value_string (jsonGetString value), true)
       else
         Except.ok (p, false)
     | _ => Except.ok (p, false))
  let q := pair.1
  let found := pair.2
  if !q.has_default_value && !found then
    Except.error ("Missing valid argument: " ++ q.name)
  else
    Except.ok q

/-- Whether the caller's arguments hold an entry of the exactly matching wire
type for the property (the condition under which the loop sets `found`). -/
def hasWireMatch (tool_arguments : Option Json) (p : Property) : Bool :=
  match tool_arguments with
  | some (Json.obj fields) =>
    let value := jsonLookup fields p.name
    (p.type == PropertyType.boolean && jsonIsBool value) ||
    (p.type == PropertyType.integer && jsonIsNumber value) ||
    (p.type == PropertyType.string && jsonIsString value)
  | _ => false

/-- The whole binding loop over the copied schema; the first failing property
aborts the call (early `return` / thrown exception in the C++). -/
def bindAll (tool_arguments : Option Json) :
    List Property → Except String (List Property)
  | [] => Except.ok []
  | p :: rest => do
    let q ← bindProperty tool_arguments p
    let qs ← bindAll tool_arguments rest
    Except.ok (q :: qs)

/-- Result of `DoToolCall`: either an immediate error reply, or the bound
call packaged onto the main execution context (`app.Schedule`,
mcp_server.cc:583-591) — the handler runs only in the latter case. -/
inductive CallOutcome where
  | replyError (id : Int) (message : String)
  | scheduled (id : Int) (toolName : String) (arguments : List Property)
deriving DecidableEq

/-- Whether a bound call was scheduled onto the execution context. -/
def CallOutcome.isScheduled : CallOutcome → Bool
  | CallOutcome.replyError _ _ => false
  | CallOutcome.scheduled _ _ _ => true

/-- `McpServer::DoToolCall` (mcp_server.cc:540-592). -/
def DoToolCall (tools : List McpTool) (id : Int) (tool_name : String)
    (tool_arguments : Option Json) : CallOutcome :=
  match tools.find? (fun t => t.name == tool_name) with
  | none => CallOutcome.replyError id ("Unknown tool: " ++ tool_name)
  | some tool =>
    match bindAll tool_arguments tool.properties with
    | Except.error e => CallOutcome.replyError id e
    | Except.ok arguments => CallOutcome.scheduled id tool.name arguments

/-! ## Protocol dispatcher (`McpServer::ParseMessage`, mcp_server.cc:382-465) -/

/-- Server identity used by the `initialize` reply (BOARD_NAME and the
build version) together with the registry. -/
structure ServerState where
  tools : List McpTool
  boardName : String
  appVersion : String

/-- The `initialize` result payload (mcp_server.cc:423-427). -/
def initializeResultJson (s : ServerState) : List Char :=
  ("\x7b\"protocolVersion\":\"2024-11-05\",\"capabilities\":\x7b\"tools\":\x7b\x7d\x7d,\"serverInfo\":\x7b\"name\":\""
    ++ s.boardName ++ "\",\"version\":\"" ++ s.appVersion ++ "\"\x7d\x7d").toList

/-- Observable effect of dispatching one message: silence (dropped message or
notification), an immediate reply, or a tool call (which itself either
replies with an error immediately or schedules the handler). -/
inductive DispatchResult where
  | silent
  | replied (r : Reply)
  | toolCall (outcome : CallOutcome)
deriving DecidableEq

/-- `McpServer::ParseMessage(const cJSON*)` (mcp_server.cc:382-465).
`ParseCapabilities` only configures the camera collaborator and sends
nothing, so it does not appear in the dispatch result. -/
def ParseMessage (s : ServerState) (json : Json) : DispatchResult :=
  if !jsonIsString (getObjectItem json "jsonrpc") ||
      jsonGetString (getObjectItem json "jsonrpc") != "2.0" then
    DispatchResult.silent
  else if !jsonIsString (getObjectItem json "method") then
    DispatchResult.silent
  else
    let method_str := jsonGetString (getObjectItem json "method")
    if method_str.startsWith "notifications" then
      DispatchResult.silent
    else
      let params := getObjectItem json "params"
      if params.isSome && !jsonIsObj params then
        DispatchResult.silent
      else if !jsonIsNumber (getObjectItem json "id") then
        DispatchResult.silent
      else
        let id_int := jsonGetInt (getObjectItem json "id")
        if method_str == "initialize" then
          DispatchResult.replied (Reply.result id_int (initializeResultJson s))
        else if method_str == "tools/list" then
          let cursor_str :=
            if jsonIsString (getObjectItemOpt params "cursor") then
              jsonGetString (getObjectItemOpt params "cursor")
            else ""
          let list_user_only_tools :=
            if jsonIsBool (getObjectItemOpt params "withUserTools") then
              jsonGetBool (getObjectItemOpt params "withUserTools")
            else false
          DispatchResult.replied
            (GetToolsList s.tools id_int cursor_str list_user_only_tools).1
        else if method_str == "tools/call" then
          if !jsonIsObj params then
            DispatchResult.replied (Reply.error id_int "Missing params")
          else if !jsonIsString (getObjectItemOpt params "name") then
            DispatchResult.replied (Reply.error id_int "Missing name")
          else
            let tool_arguments := getObjectItemOpt params "arguments"
            if tool_arguments.isSome && !jsonIsObj tool_arguments then
              DispatchResult.replied (Reply.error id_int "Invalid arguments")
            else
              DispatchResult.toolCall
                (DoToolCall s.tools id_int
                  (jsonGetString (getObjectItemOpt params "name")) tool_arguments)
        else
          DispatchResult.replied
            (Reply.error id_int ("Method not implemented: " ++ method_str))

/-- Envelope validity exactly as claim C6 / spec section 4.3 enumerate it:
`jsonrpc` absent, not a string, or not `"2.0"`; `method` absent or not a
string; `params` present but not an object; `id` absent or not numeric
(spec-side description, to be compared with `ParseMessage`). -/
def specBadEnvelope (json : Json) : Bool :=
  (!jsonIsString (getObjectItem json "jsonrpc") ||
    jsonGetString (getObjectItem json "jsonrpc") != "2.0") ||
  !jsonIsString (getObjectItem json "method") ||
  ((getObjectItem json "params").isSome && !jsonIsObj (getObjectItem json "params")) ||
  !jsonIsNumber (getObjectItem json "id")

/-! ## Concrete example values (used by witnesses and counterexamples) -/

/-- A small tool named `"A"`. -/
def exToolA : McpTool :=
  { name := "A", description := "", properties := [], userOnly := false,
    toJson := "<a>".toList }

/-- A small tool named `"B"`. -/
def exToolB : McpTool :=
  { name := "B", description := "", properties := [], userOnly := false,
    toJson := "<b>".toList }

/-- A user-only tool. -/
def exToolU : McpTool :=
  { name := "U", description := "", properties := [], userOnly := true,
    toJson := "<u>".toList }

/-- A tool with the same name as `exToolA` but different content. -/
def exToolADup : McpTool :=
  { name := "A", description := "dup", properties := [], userOnly := false,
    toJson := "<a2>".toList }

/-- A serialization too large to fit even alone (7960 units; the budget
check is 10 + (7960+1) + 30 = 8001 > 8000). -/
def exBigJson : List Char := List.replicate 7960 'x'

/-- A tool whose serialization alone exceeds the payload budget. -/
def exToolBig : McpTool :=
  { name := "big", description := "", properties := [], userOnly := false,
    toJson := exBigJson }

/-- A tool named `"C"` whose serialization alone exceeds the budget. -/
def exToolCBig : McpTool :=
  { name := "C", description := "", properties := [], userOnly := false,
    toJson := exBigJson }

/-- A tool named `"C"` sized so that A+B fit, A+B+C overflow, yet C alone
fits (7955 units: 10+5+5+7956+30 = 8006 > 8000 but 10+7956+30 = 7996). -/
def exToolCMid : McpTool :=
  { name := "C", description := "", properties := [], userOnly := false,
    toJson := List.replicate 7955 'x' }

/-- A required integer property (no default), range 0..100. -/
def exPropVolume : Property :=
  { name := "volume", type := PropertyType.integer,
    minValue := some 0, maxValue := some 100 }

/-- An integer property with default 80, range 1..100. -/
def exPropQuality : Property :=
  { name := "quality", type := PropertyType.integer,
    defaultValue := some (PropValue.vInt 80),
    minValue := some 1, maxValue := some 100 }

/-- A tool requiring the `volume` argument. -/
def exToolVolume : McpTool :=
  { name := "set_volume", description := "", properties := [exPropVolume],
    userOnly := false, toJson := "<v>".toList }

/-- A tool with only the defaulted `quality` argument. -/
def exToolQuality : McpTool :=
  { name := "snap", description := "", properties := [exPropQuality],
    userOnly := false, toJson := "<q>".toList }

/-- An example server identity. -/
def exServer : ServerState :=
  { tools := [], boardName := "board", appVersion := "1.0" }

/-- A message whose `jsonrpc` field is not `"2.0"`. -/
def exBadMsg : Json := Json.obj [("jsonrpc", Json.str "1.0")]

/-! ## Helper lemmas: the pagination loop -/

theorem flatJson_nil : flatJson [] = [] := rfl

theorem flatJson_cons (t : McpTool) (rest : List McpTool) :
    flatJson (t :: rest) = (t.toJson ++ [',']) ++ flatJson rest := rfl

theorem elig_of_skip_false {lu : Bool} {t : McpTool}
    (h : (!lu && t.userOnly) = false) : elig lu t = true := by
  cases lu <;> cases hu : t.userOnly <;> simp_all [elig]

theorem elig_false_of_skip {lu : Bool} {t : McpTool}
    (h : (!lu && t.userOnly) = true) : elig lu t = false := by
  cases lu <;> cases hu : t.userOnly <;> simp_all [elig]

/-- Skipping phase: while `found_cursor` is false, tools whose name differs
from the cursor are passed over without any other effect. -/
theorem listLoop_skip (cursor : String) (lu : Bool) (pre suf : List McpTool)
    (json : List Char) (h : ∀ p ∈ pre, p.name ≠ cursor) :
    listLoop cursor lu (pre ++ suf) false json = listLoop cursor lu suf false json := by
  induction pre with
  | nil => rfl
  | cons p rest ih =>
    have hp : (p.name != cursor) = true := by
      simpa [bne_iff_ne] using h p (List.mem_cons_self _ _)
    simp only [List.cons_append, listLoop, Bool.not_false, Bool.true_and, hp, if_true]
    exact ih (fun q hq => h q (List.mem_cons_of_mem _ hq))

/-- When the head tool's name equals the cursor, the loop continues exactly
as if the cursor had already been found. -/
theorem listLoop_enter (cursor : String) (lu : Bool) (t : McpTool)
    (rest : List McpTool) (json : List Char) (h : t.name = cursor) :
    listLoop cursor lu (t :: rest) false json =
      listLoop cursor lu (t :: rest) true json := by
  simp [listLoop, h]

/-- Filling phase: once the cursor has been found, the loop appends the
serializations of a prefix of the eligible tools, stopping either at
exhaustion (no `next_cursor`) or at the first eligible tool that would
overflow the budget (which becomes the `next_cursor` and is not included). -/
theorem listLoop_fill (cursor : String) (lu : Bool) :
    ∀ (suf : List McpTool) (json : List Char),
    ∃ nc inc,
      listLoop cursor lu suf true json = (json ++ flatJson inc, nc, inc) ∧
      ((nc = "" ∧ inc = suf.filter (elig lu)) ∨
       (∃ s1 t s2, suf = s1 ++ t :: s2 ∧ elig lu t = true ∧ nc = t.name ∧
         inc = s1.filter (elig lu) ∧
         (json ++ flatJson inc).length + (t.toJson ++ [',']).length + 30 >
           maxPayloadSize)) := by
  intro suf
  induction suf with
  | nil =>
    intro json
    exact ⟨"", [], by simp [listLoop, flatJson], Or.inl ⟨rfl, rfl⟩⟩
  | cons t rest ih =>
    intro json
    by_cases hskip : (!lu && t.userOnly) = true
    · obtain ⟨nc, inc, heq, hcase⟩ := ih json
      refine ⟨nc, inc, ?_, ?_⟩
      · simp only [listLoop, Bool.not_true, Bool.false_and, if_false, hskip, if_true]
        exact heq
      · rcases hcase with ⟨hnc, hinc⟩ | ⟨s1, u, s2, hsuf, helig, hnc, hinc, hover⟩
        · exact Or.inl ⟨hnc, by
            rw [hinc, List.filter_cons_of_neg]
            simp [elig_false_of_skip hskip]⟩
        · exact Or.inr ⟨t :: s1, u, s2, by simp [hsuf], helig, hnc, by
            rw [hinc, List.filter_cons_of_neg]
            simp [elig_false_of_skip hskip], hover⟩
    · have hskip' : (!lu && t.userOnly) = false := by
        simpa using hskip
      have helig : elig lu t = true := elig_of_skip_false hskip'
      by_cases hover : json.length + (t.toJson ++ [',']).length + 30 > maxPayloadSize
      · refine ⟨t.name, [], ?_, ?_⟩
        · simp only [listLoop, Bool.not_true, Bool.false_and, if_false, hskip', if_true]
          rw [if_pos hover]
          simp [flatJson]
        · exact Or.inr ⟨[], t, rest, rfl, helig, rfl, rfl, by
            simpa [flatJson] using hover⟩
      · obtain ⟨nc, inc, heq, hcase⟩ := ih (json ++ (t.toJson ++ [',']))
        refine ⟨nc, t :: inc, ?_, ?_⟩
        · simp only [listLoop, Bool.not_true, Bool.false_and, if_false, hskip', if_true]
          rw [if_neg hover]
          simp only [heq, flatJson_cons]
          simp [List.append_assoc]
        · rcases hcase with ⟨hnc, hinc⟩ | ⟨s1, u, s2, hsuf, helig', hnc, hinc, hover'⟩
          · exact Or.inl ⟨hnc, by rw [hinc, List.filter_cons_of_pos helig]⟩
          · refine Or.inr ⟨t :: s1, u, s2, by simp [hsuf], helig', hnc, ?_, ?_⟩
            · rw [hinc, List.filter_cons_of_pos helig]
            · rw [hinc] at hover' ⊢
              rw [flatJson_cons]
              rw [show json ++ (t.toJson ++ [','] ++ flatJson (List.filter (elig lu) s1)) = json ++ (t.toJson ++ [',']) ++ flatJson (List.filter (elig lu) s1) by simp [List.append_assoc]]
              exact hover'

theorem flatJson_append (a b : List McpTool) :
    flatJson (a ++ b) = flatJson a ++ flatJson b := by
  induction a with
  | nil => simp [flatJson]
  | cons t rest ih => simp [flatJson, ih]

/-- Every tool whose serialization the loop appends passes the visibility
filter. -/
theorem listLoop_mem_elig (cursor : String) (lu : Bool) :
    ∀ (ts : List McpTool) (fc : Bool) (json : List Char) (t : McpTool),
    t ∈ (listLoop cursor lu ts fc json).2.2 → elig lu t = true := by
  intro ts
  induction ts with
  | nil =>
    intro fc json t h
    simp [listLoop] at h
  | cons u rest ih =>
    intro fc json t h
    simp only [listLoop] at h
    split at h
    · exact ih _ _ t h
    · split at h
      · exact ih _ _ t h
      · rename_i hskip
        split at h
        · simp at h
        · simp only [List.mem_cons] at h
          rcases h with rfl | h
          · exact elig_of_skip_false (by simpa using hskip)
          · exact ih _ _ t h

/-- Starting the loop: with an empty cursor it is already in the filling
phase; with a non-empty cursor naming the head of `suf` (after a prefix with
other names) it reaches `suf` and enters the filling phase there. -/
theorem listLoop_start (ts pre suf : List McpTool) (cursor : String) (lu : Bool)
    (hts : ts = pre ++ suf)
    (hcursor : (cursor = "" ∧ pre = []) ∨
      (cursor ≠ "" ∧ (∀ p ∈ pre, p.name ≠ cursor) ∧
        ∃ u s2, suf = u :: s2 ∧ u.name = cursor)) :
    listLoop cursor lu ts (cursor == "") jsonOpen =
      listLoop cursor lu suf true jsonOpen := by
  rcases hcursor with ⟨hc, hpre⟩ | ⟨hc, hpre, u, s2, hsuf, hu⟩
  · subst hc hpre
    simp only [hts, List.nil_append]
    rfl
  · have hbeq : (cursor == "") = false := by simp [hc]
    rw [hts, hbeq, listLoop_skip cursor lu pre suf jsonOpen hpre, hsuf,
      listLoop_enter cursor lu u s2 jsonOpen hu]

theorem jsonOpen_getLast : jsonOpen.getLast? = some '[' := by decide

/-- Post-processing facts when at least one tool was included: the payload
ends in `','`, the pop removes it, and (given a well-formed last
serialization) the error branch is not taken. -/
theorem flat_pop (inc0 : List McpTool) (tl : McpTool) :
    (jsonOpen ++ flatJson (inc0 ++ [tl])).getLast? = some ',' ∧
    (jsonOpen ++ flatJson (inc0 ++ [tl])).dropLast =
      jsonOpen ++ flatJson inc0 ++ tl.toJson := by
  constructor
  · rw [flatJson_append]
    rw [show jsonOpen ++ (flatJson inc0 ++ flatJson [tl]) =
      (jsonOpen ++ flatJson inc0 ++ tl.toJson) ++ [','] by simp [flatJson, List.append_assoc]]
    exact List.getLast?_concat _
  · rw [flatJson_append]
    rw [show jsonOpen ++ (flatJson inc0 ++ flatJson [tl]) =
      (jsonOpen ++ flatJson inc0 ++ tl.toJson) ++ [','] by simp [flatJson, List.append_assoc]]
    exact List.dropLast_concat

theorem flat_popped_not_bracket (inc0 : List McpTool) (tl : McpTool)
    (hne : tl.toJson ≠ []) (hlast : tl.toJson.getLast? ≠ some '[') :
    (jsonOpen ++ flatJson inc0 ++ tl.toJson).getLast? ≠ some '[' := by
  rw [List.append_assoc, List.getLast?_append_of_ne_nil _ (by
    intro h
    exact hne (by
      rcases List.append_eq_nil.mp h with ⟨-, h2⟩
      exact h2))]
  rw [List.getLast?_append_of_ne_nil _ hne]
  exact hlast

/-- One `tools/list` call whose loop reaches the filling phase at `suf`:
either the whole filtered suffix fits and `next_cursor` stays empty, or a
non-empty filtered prefix is included and the first overflowing eligible
tool's name becomes `next_cursor`; in both cases the reply is a result, not
an error. -/
theorem GetToolsList_onecall (ts pre suf : List McpTool) (id : Int)
    (cursor : String) (lu : Bool)
    (hts : ts = pre ++ suf)
    (hstart : listLoop cursor lu ts (cursor == "") jsonOpen =
      listLoop cursor lu suf true jsonOpen)
    (Hok : ∀ t ∈ suf, elig lu t = true → ToolFits t)
    (Hne : ts ≠ [] → suf.filter (elig lu) ≠ []) :
    (∃ payload, GetToolsList ts id cursor lu =
        (Reply.result id payload, suf.filter (elig lu), "")) ∨
    (∃ payload s1 u s2, suf = s1 ++ u :: s2 ∧ elig lu u = true ∧
        s1.filter (elig lu) ≠ [] ∧
        GetToolsList ts id cursor lu =
          (Reply.result id payload, s1.filter (elig lu), u.name)) := by
  by_cases hts0 : ts = []
  · have hsuf0 : suf = [] := (List.append_eq_nil.mp (hts0 ▸ hts.symm)).2
    subst hts0
    refine Or.inl ⟨jsonOpen ++ "]\x7d".toList, ?_⟩
    simp only [GetToolsList, listLoop]
    rw [if_neg (by decide : ¬ jsonOpen.getLast? = some ',')]
    rw [if_neg (by simp : ¬ (jsonOpen.getLast? = some '[' ∧ ([] : List McpTool) ≠ []))]
    rw [if_pos (by rfl : (("" : String) == "") = true)]
    rw [hsuf0]
    rfl
  · have hfilter := Hne hts0
    obtain ⟨nc, inc, heq, hcase⟩ := listLoop_fill cursor lu suf jsonOpen
    have hloop : listLoop cursor lu ts (cursor == "") jsonOpen =
        (jsonOpen ++ flatJson inc, nc, inc) := hstart.trans heq
    rcases hcase with ⟨hnc, hinc⟩ | ⟨s1, u, s2, hsuf, helig, hnc, hinc, hover⟩
    · -- exhaustion: everything eligible in suf was included
      have hincne : inc ≠ [] := hinc ▸ hfilter
      obtain ⟨inc0, tl, hconcat⟩ := inc.eq_nil_or_concat'.resolve_left hincne
      have htl_mem : tl ∈ suf.filter (elig lu) := by
        rw [← hinc, hconcat]
        exact List.mem_append_right _ (List.mem_singleton_self tl)
      have htl := List.mem_filter.mp htl_mem
      obtain ⟨-, htlne, htllast⟩ := Hok tl htl.1 htl.2
      refine Or.inl ⟨jsonOpen ++ flatJson inc0 ++ tl.toJson ++ "]\x7d".toList, ?_⟩
      simp only [GetToolsList, hloop]
      rw [hconcat, if_pos (flat_pop inc0 tl).1, (flat_pop inc0 tl).2]
      rw [if_neg (fun hc => absurd hc.1 (flat_popped_not_bracket inc0 tl htlne htllast))]
      rw [hnc]
      rw [if_pos (by rfl : (("" : String) == "") = true)]
      rw [← hconcat, hinc]
    · -- overflow at u: a non-empty strict prefix was included
      have hu_mem : u ∈ suf := by
        rw [hsuf]
        exact List.mem_append_right _ (List.mem_cons_self _ _)
      obtain ⟨hufit, -, -⟩ := Hok u hu_mem helig
      have hincne : inc ≠ [] := by
        intro h0
        rw [h0] at hover
        simp only [flatJson, List.append_nil] at hover
        omega
      obtain ⟨inc0, tl, hconcat⟩ := inc.eq_nil_or_concat'.resolve_left hincne
      have htl_mem_inc : tl ∈ inc := by
        rw [hconcat]
        exact List.mem_append_right _ (List.mem_singleton_self tl)
      have htl_filter : tl ∈ s1.filter (elig lu) := hinc ▸ htl_mem_inc
      have htl := List.mem_filter.mp htl_filter
      have htl_suf : tl ∈ suf := by
        rw [hsuf]
        exact List.mem_append_left _ htl.1
      obtain ⟨-, htlne, htllast⟩ := Hok tl htl_suf htl.2
      have hpop := flat_pop inc0 tl
      have hnob := flat_popped_not_bracket inc0 tl htlne htllast
      by_cases hnm : (u.name == "") = true
      · refine Or.inr ⟨jsonOpen ++ flatJson inc0 ++ tl.toJson ++ "]\x7d".toList,
          s1, u, s2, hsuf, helig, hinc ▸ hincne, ?_⟩
        simp only [GetToolsList, hloop]
        rw [hconcat, if_pos hpop.1, hpop.2]
        rw [if_neg (fun hc => absurd hc.1 hnob)]
        rw [hnc, if_pos hnm, ← hconcat, hinc]
      · refine Or.inr ⟨jsonOpen ++ flatJson inc0 ++ tl.toJson ++
          "],\"nextCursor\":\"".toList ++ u.name.toList ++ "\"\x7d".toList,
          s1, u, s2, hsuf, helig, hinc ▸ hincne, ?_⟩
        simp only [GetToolsList, hloop]
        rw [hconcat, if_pos hpop.1, hpop.2]
        rw [if_neg (fun hc => absurd hc.1 hnob)]
        rw [hnc, if_neg (by simpa using hnm), ← hconcat, hinc]

/-- Chained pagination: starting from the cursor that designates the suffix
`suf` of the registry, following `nextCursor` links enumerates exactly the
eligible tools of `suf`, in order. -/
theorem chainCalls_suffix (ts : List McpTool) (lu : Bool) (id : Int)
    (Hnodup : (ts.map McpTool.name).Nodup)
    (Hok : ∀ t ∈ ts, elig lu t = true → ToolFits t)
    (Hnames : ∀ t ∈ ts, t.name ≠ "") :
    ∀ (fuel : Nat) (pre suf : List McpTool) (cursor : String),
      ts = pre ++ suf →
      suf.length < fuel →
      ((cursor = "" ∧ pre = [] ∧ (ts ≠ [] → suf.filter (elig lu) ≠ [])) ∨
        (cursor ≠ "" ∧ (∀ p ∈ pre, p.name ≠ cursor) ∧
          ∃ u s2, suf = u :: s2 ∧ u.name = cursor ∧ elig lu u = true)) →
      chainCalls ts lu id fuel cursor = some (suf.filter (elig lu)) := by
  intro fuel
  induction fuel with
  | zero =>
    intro pre suf cursor hts hlt hcur
    omega
  | succ fuel ih =>
    intro pre suf cursor hts hlt hcur
    have hstart : listLoop cursor lu ts (cursor == "") jsonOpen =
        listLoop cursor lu suf true jsonOpen := by
      apply listLoop_start ts pre suf cursor lu hts
      rcases hcur with ⟨hc, hpre, -⟩ | ⟨hc, hpre, u, s2, hsuf, hu, -⟩
      · exact Or.inl ⟨hc, hpre⟩
      · exact Or.inr ⟨hc, hpre, u, s2, hsuf, hu⟩
    have Hok' : ∀ t ∈ suf, elig lu t = true → ToolFits t := by
      intro t ht he
      exact Hok t (hts ▸ List.mem_append_right pre ht) he
    have Hne : ts ≠ [] → suf.filter (elig lu) ≠ [] := by
      rcases hcur with ⟨-, -, hne⟩ | ⟨-, -, u, s2, hsuf, -, hue⟩
      · exact hne
      · intro _
        rw [hsuf, List.filter_cons_of_pos hue]
        simp
    rcases GetToolsList_onecall ts pre suf id cursor lu hts hstart Hok' Hne with
      ⟨payload, hres⟩ | ⟨payload, s1, u, s2, hsuf, helig, hincne, hres⟩
    · simp [chainCalls, hres]
    · have hu_suf : u ∈ suf := by
        rw [hsuf]
        exact List.mem_append_right _ (List.mem_cons_self _ _)
      have hu_ts : u ∈ ts := hts ▸ List.mem_append_right pre hu_suf
      have huname : u.name ≠ "" := Hnames u hu_ts
      have hs1ne : s1 ≠ [] := by
        intro h0
        rw [h0] at hincne
        simp at hincne
      have hts' : ts = (pre ++ s1) ++ (u :: s2) := by
        rw [hts, hsuf, List.append_assoc]
      have hlen : s2.length + 1 < fuel := by
        have h1 : suf.length = s1.length + (s2.length + 1) := by
          rw [hsuf]
          simp [List.length_append]
        have h2 : 0 < s1.length := List.length_pos.mpr hs1ne
        omega
      have hdisj : ∀ p ∈ pre ++ s1, p.name ≠ u.name := by
        have hnn := Hnodup
        rw [hts', List.map_append] at hnn
        have hd := (List.nodup_append.mp hnn).2.2
        intro p hp hpe
        exact hd (hpe ▸ List.mem_map_of_mem McpTool.name hp)
          (by simp [List.map_cons])
      have hrec := ih (pre ++ s1) (u :: s2) u.name hts' (by simpa using hlen)
        (Or.inr ⟨huname, hdisj, u, s2, rfl, rfl, helig⟩)
      simp only [chainCalls, hres]
      rw [if_neg huname, hrec]
      simp [hsuf, List.filter_append]

/-! ## Helper lemmas: argument binding -/

/-- A property with no matching-typed entry is left untouched: it binds to
itself when it has a default and fails with the missing-argument message
otherwise. -/
theorem bindProperty_no_match (args : Option Json) (p : Property)
    (h : hasWireMatch args p = false) :
    bindProperty args p =
      (if p.has_default_value then Except.ok p
       else Except.error ("Missing valid argument: " ++ p.name)) := by
  match args with
  | some (Json.obj fields) =>
    simp only [hasWireMatch, Bool.or_eq_false_iff] at h
    obtain ⟨⟨hb, hi⟩, hs⟩ := h
    simp only [bindProperty, hb, hi, hs, Bool.false_eq_true, if_false,
      bind, Except.bind]
    cases hd : p.has_default_value <;> simp [hd]
  | none =>
    simp only [bindProperty, bind, Except.bind]
    cases hd : p.has_default_value <;> simp [hd]
  | some Json.null =>
    simp only [bindProperty, bind, Except.bind]
    cases hd : p.has_default_value <;> simp [hd]
  | some (Json.bool _) =>
    simp only [bindProperty, bind, Except.bind]
    cases hd : p.has_default_value <;> simp [hd]
  | some (Json.num _) =>
    simp only [bindProperty, bind, Except.bind]
    cases hd : p.has_default_value <;> simp [hd]
  | some (Json.str _) =>
    simp only [bindProperty, bind, Except.bind]
    cases hd : p.has_default_value <;> simp [hd]
  | some (Json.arr _) =>
    simp only [bindProperty, bind, Except.bind]
    cases hd : p.has_default_value <;> simp [hd]

/-- The loop aborts at a failing head property. -/
theorem bindAll_cons_error (args : Option Json) (p : Property)
    (rest : List Property) (e : String) (h : bindProperty args p = Except.error e) :
    bindAll args (p :: rest) = Except.error e := by
  simp [bindAll, h, bind, Except.bind]

/-- If the whole loop succeeds, every property bound successfully. -/
theorem bindAll_ok_mem (args : Option Json) :
    ∀ (l l' : List Property), bindAll args l = Except.ok l' →
    ∀ q ∈ l, ∃ q', bindProperty args q = Except.ok q' := by
  intro l
  induction l with
  | nil => intro l' _ q hq; simp at hq
  | cons p rest ih =>
    intro l' hl q hq
    simp only [bindAll, bind, Except.bind] at hl
    cases hp : bindProperty args p with
    | error e => rw [hp] at hl; exact absurd hl (by simp)
    | ok p' =>
      rw [hp] at hl
      cases hr : bindAll args rest with
      | error e => rw [hr] at hl; exact absurd hl (by simp)
      | ok rest' =>
        rcases List.mem_cons.mp hq with rfl | hq'
        · exact ⟨p', hp⟩
        · exact ih rest' hr q hq'

/-- If each property of a list binds successfully, the loop over that list
succeeds with a list of the same length. -/
theorem bindAll_ok_forall (args : Option Json) :
    ∀ (l : List Property), (∀ q ∈ l, ∃ q', bindProperty args q = Except.ok q') →
    ∃ l', bindAll args l = Except.ok l' ∧ l'.length = l.length := by
  intro l
  induction l with
  | nil => intro _; exact ⟨[], rfl, rfl⟩
  | cons p rest ih =>
    intro h
    obtain ⟨p', hp⟩ := h p (List.mem_cons_self _ _)
    obtain ⟨rest', hr, hlen⟩ := ih (fun q hq => h q (List.mem_cons_of_mem _ hq))
    exact ⟨p' :: rest', by simp [bindAll, hp, hr, bind, Except.bind], by simp [hlen]⟩

/-- Splitting the loop across an append. -/
theorem bindAll_append (args : Option Json) :
    ∀ (l1 l2 : List Property) (l1' : List Property),
    bindAll args l1 = Except.ok l1' →
    bindAll args (l1 ++ l2) =
      (bindAll args l2).map (fun l2' => l1' ++ l2') := by
  intro l1
  induction l1 with
  | nil =>
    intro l2 l1' h
    simp only [bindAll] at h
    cases h
    simp only [List.nil_append]
    cases h2 : bindAll args l2 <;> simp [Except.map, h2]
  | cons p rest ih =>
    intro l2 l1' h
    simp only [bindAll, bind, Except.bind, List.append_eq] at h ⊢
    cases hp : bindProperty args p with
    | error e => rw [hp] at h; exact absurd h (by simp)
    | ok p' =>
      rw [hp] at h
      cases hr : bindAll args rest with
      | error e => rw [hr] at h; exact absurd h (by simp)
      | ok rest' =>
        rw [hr] at h
        simp only [Except.ok.injEq] at h
        rw [ih l2 rest' hr]
        cases h2 : bindAll args l2 <;> simp [Except.map, ← h]

/-! ## Helper lemmas: further listing and call facts -/

/-- The empty registry always yields the empty success page. -/
theorem GetToolsList_nil (id : Int) (cursor : String) (lu : Bool) :
    GetToolsList [] id cursor lu =
      (Reply.result id (jsonOpen ++ "]\x7d".toList), [], "") := by
  simp only [GetToolsList, listLoop]
  rw [if_neg (by decide : ¬ jsonOpen.getLast? = some ',')]
  rw [if_neg (by simp : ¬ (jsonOpen.getLast? = some '[' ∧ ([] : List McpTool) ≠ []))]
  rfl

/-- A non-empty cursor matching no tool name leaves the loop in the skipping
phase for the whole registry: nothing is appended and no cursor is set. -/
theorem listLoop_no_match (cursor : String) (lu : Bool) (ts : List McpTool)
    (json : List Char) (h : ∀ t ∈ ts, t.name ≠ cursor) :
    listLoop cursor lu ts false json = (json, "", []) := by
  have := listLoop_skip cursor lu ts [] json h
  rw [List.append_nil] at this
  rw [this]
  rfl

/-- Every tool included in a `tools/list` reply passes the visibility
filter. -/
theorem GetToolsList_included_elig (ts : List McpTool) (id : Int)
    (cursor : String) (lu : Bool) (t : McpTool)
    (h : t ∈ (GetToolsList ts id cursor lu).2.1) : elig lu t = true := by
  simp only [GetToolsList] at h
  split at h <;> split at h
  · simp at h
  · split at h <;> exact listLoop_mem_elig cursor lu ts (cursor == "") jsonOpen t h
  · simp at h
  · split at h <;> exact listLoop_mem_elig cursor lu ts (cursor == "") jsonOpen t h

/-- `find?` by name commutes with rewriting the `user_only` flag. -/
theorem find?_map_userOnly (ts : List McpTool) (f : McpTool → Bool) (n : String) :
    (ts.map (fun t => { t with userOnly := f t })).find? (fun t => t.name == n) =
      (ts.find? (fun t => t.name == n)).map (fun t => { t with userOnly := f t }) := by
  induction ts with
  | nil => rfl
  | cons u rest ih =>
    simp only [List.map_cons, List.find?]
    cases hn : (u.name == n) <;> simp [hn, ih]

/-- `DoToolCall` never reads the `user_only` flag: rewriting the flags of
the whole registry leaves its outcome unchanged. -/
theorem DoToolCall_userOnly (ts : List McpTool) (id : Int) (n : String)
    (args : Option Json) (f : McpTool → Bool) :
    DoToolCall (ts.map (fun t => { t with userOnly := f t })) id n args =
      DoToolCall ts id n args := by
  simp only [DoToolCall, find?_map_userOnly]
  cases h : ts.find? (fun t => t.name == n) with
  | none => rfl
  | some tool => cases hb : bindAll args tool.properties <;> simp [hb]

/-! ## Helper lemmas: single loop steps in the filling phase -/

theorem listLoop_cons_add (cursor : String) (lu : Bool) (t : McpTool)
    (rest : List McpTool) (json : List Char)
    (hskip : (!lu && t.userOnly) = false)
    (hfit : ¬ json.length + (t.toJson ++ [',']).length + 30 > maxPayloadSize) :
    listLoop cursor lu (t :: rest) true json =
      ((listLoop cursor lu rest true (json ++ (t.toJson ++ [',']))).1,
       (listLoop cursor lu rest true (json ++ (t.toJson ++ [',']))).2.1,
       t :: (listLoop cursor lu rest true (json ++ (t.toJson ++ [',']))).2.2) := by
  simp only [listLoop]
  rw [if_neg (by simp), if_neg (by simp [hskip]), if_neg hfit]

theorem listLoop_cons_overflow (cursor : String) (lu : Bool) (t : McpTool)
    (rest : List McpTool) (json : List Char)
    (hskip : (!lu && t.userOnly) = false)
    (hover : json.length + (t.toJson ++ [',']).length + 30 > maxPayloadSize) :
    listLoop cursor lu (t :: rest) true json = (json, t.name, []) := by
  simp only [listLoop]
  rw [if_neg (by simp), if_neg (by simp [hskip]), if_pos hover]

/-! ## Claims -/

/-- C7: For every pair of device states (from, to): if (from, to) is an edge
of the fixed transition table, `TransitionTo` returns true, the state becomes
`to`, and exactly one (from, to) notification fires; if from = to it returns
true with no state change and no notification; for every other pair it
returns false, the state is unchanged, and no notification fires. In
particular FatalError has no legal outgoing transition. -/
theorem claimC7 : ∀ f t : DeviceState,
    (TransitionTo f t =
      (if f = t then (true, f, ([] : List (DeviceState × DeviceState)))
       else if deviceTransitionTable.contains (f, t) then (true, t, [(f, t)])
       else (false, f, []))) ∧
    IsValidTransition DeviceState.fatalError t = (t == DeviceState.fatalError) := by
  decide

/-- C8: Registry names stay pairwise distinct under `AddTool`; adding a tool
whose name is already registered leaves the registry unchanged (same list,
and the name still resolves to the first-registered tool), otherwise the
tool is appended at the end. -/
theorem claimC8 : ∀ (tools : List McpTool) (tool : McpTool),
    ((tools.map McpTool.name).Nodup → ((AddTool tools tool).map McpTool.name).Nodup) ∧
    ((∃ t ∈ tools, t.name = tool.name) →
      AddTool tools tool = tools ∧
      (AddTool tools tool).find? (fun t => t.name == tool.name) =
        tools.find? (fun t => t.name == tool.name)) ∧
    ((¬ ∃ t ∈ tools, t.name = tool.name) → AddTool tools tool = tools ++ [tool]) := by
  intro tools tool
  have hany : (tools.any (fun t => t.name == tool.name) = true) ↔
      ∃ t ∈ tools, t.name = tool.name := by
    simp [List.any_eq_true]
  by_cases hdup : ∃ t ∈ tools, t.name = tool.name
  · have heq : AddTool tools tool = tools := by
      rw [AddTool, if_pos (hany.mpr hdup)]
    exact ⟨fun hn => by rw [heq]; exact hn, fun _ => ⟨heq, by rw [heq]⟩,
      fun hc => absurd hdup hc⟩
  · have heq : AddTool tools tool = tools ++ [tool] := by
      rw [AddTool, if_neg (fun hc => hdup (hany.mp hc))]
    refine ⟨fun hn => ?_, fun hc => absurd hc hdup, fun _ => heq⟩
    rw [heq, List.map_append, List.nodup_append]
    refine ⟨hn, by simp, ?_⟩
    intro a ha hb
    obtain ⟨t, ht, hteq⟩ := List.mem_map.mp ha
    simp only [List.map_cons, List.map_nil, List.mem_singleton] at hb
    exact hdup ⟨t, ht, by rw [hteq, hb]⟩

/-- Witness for C8 at a concrete registry: re-adding a tool named "A" is a
no-op, while adding the fresh "B" appends. -/
theorem claimC8_witness :
    AddTool [exToolA] exToolADup = [exToolA] ∧
    AddTool [exToolA] exToolB = [exToolA] ++ [exToolB] :=
  ⟨((claimC8 [exToolA] exToolADup).2.1 ⟨exToolA, by simp, by decide⟩).1,
   (claimC8 [exToolA] exToolB).2.2 (by decide)⟩

/-- C9: listing and call visibility are independent: a user-only tool is
never included by `tools/list` without `withUserTools`, while `DoToolCall`
never inspects the `user_only` flag — rewriting every tool's flag leaves
every call outcome unchanged (so a user-only tool binds and schedules
exactly like a normal one, with no visibility check and no "Unknown tool"
error on the call path). -/
theorem claimC9 :
    (∀ (ts : List McpTool) (id : Int) (cursor : String) (t : McpTool),
      t ∈ (GetToolsList ts id cursor false).2.1 → t.userOnly = false) ∧
    (∀ (ts : List McpTool) (id : Int) (n : String) (args : Option Json)
      (f : McpTool → Bool),
      DoToolCall (ts.map (fun t => { t with userOnly := f t })) id n args =
        DoToolCall ts id n args) := by
  constructor
  · intro ts id cursor t h
    have he := GetToolsList_included_elig ts id cursor false t h
    simpa [elig] using he
  · intro ts id n args f
    exact DoToolCall_userOnly ts id n args f

/-- Witness for C9: in the registry [A, U] with U user-only, the default
listing includes A, and the theorem yields that A is not user-only. -/
theorem claimC9_witness :
    exToolA ∈ (GetToolsList [exToolA, exToolU] 1 "" false).2.1 ∧
    exToolA.userOnly = false :=
  ⟨by decide, claimC9.1 [exToolA, exToolU] 1 "" exToolA (by decide)⟩

/-- C10: an empty registry yields the successful `{"tools":[]}` reply with
no `nextCursor` for every cursor and flag, and the "no entry could be added"
error branch can fire only for a non-empty registry. -/
theorem claimC10 :
    (∀ (id : Int) (cursor : String) (lu : Bool),
      GetToolsList [] id cursor lu =
        (Reply.result id ("\x7b\"tools\":[]\x7d".toList), [], "")) ∧
    (∀ (ts : List McpTool) (id : Int) (cursor : String) (lu : Bool) (msg : String),
      (GetToolsList ts id cursor lu).1 = Reply.error id msg → ts ≠ []) := by
  constructor
  · intro id cursor lu
    rw [GetToolsList_nil,
      (by decide : jsonOpen ++ "]\x7d".toList = "\x7b\"tools\":[]\x7d".toList)]
  · intro ts id cursor lu msg herr hts
    subst hts
    rw [GetToolsList_nil] at herr
    simp at herr

/-- Witness for C10: a registry holding one oversized tool does reach the
error branch, and the theorem yields that the registry is non-empty. -/
theorem exToolBig_overflows :
    jsonOpen.length + (exToolBig.toJson ++ [',']).length + 30 > maxPayloadSize := by
  have h1 : jsonOpen.length = 10 := by decide
  have h2 : (exToolBig.toJson ++ [',']).length = 7961 := by
    rw [show exToolBig.toJson = exBigJson from rfl, exBigJson, List.length_append,
      List.length_replicate]
    decide
  rw [h1, h2]
  decide

theorem GetToolsList_exToolBig :
    GetToolsList [exToolBig] 1 "" false =
      (Reply.error 1 "Failed to add tool big because of payload size limit",
       [], "big") := by
  have hloop : listLoop "" false [exToolBig] true jsonOpen = (jsonOpen, "big", []) :=
    listLoop_cons_overflow "" false exToolBig [] jsonOpen rfl exToolBig_overflows
  simp only [GetToolsList]
  rw [show (("" : String) == "") = true from rfl]
  rw [hloop]
  rw [if_neg (by decide : ¬ jsonOpen.getLast? = some ',')]
  rw [if_pos ⟨(by decide : jsonOpen.getLast? = some '['), by simp⟩]
  rfl

/-- Witness for C10: a registry holding one oversized tool does reach the
error branch, and the theorem yields that the registry is non-empty. -/
theorem claimC10_witness :
    (GetToolsList [exToolBig] 1 "" false).1 =
      Reply.error 1 "Failed to add tool big because of payload size limit" ∧
    [exToolBig] ≠ ([] : List McpTool) := by
  have h : (GetToolsList [exToolBig] 1 "" false).1 =
      Reply.error 1 "Failed to add tool big because of payload size limit" := by
    rw [GetToolsList_exToolBig]
  exact ⟨h, claimC10.2 [exToolBig] 1 "" false _ h⟩

/-- C6: every inbound message failing envelope validation — `jsonrpc`
absent, not a string, or not `"2.0"`; `method` absent or not a string;
`params` present but not an object; or `id` absent or not numeric — is
dropped by the dispatcher with no reply of any kind. -/
theorem claimC6 : ∀ (s : ServerState) (msg : Json),
    specBadEnvelope msg = true → ParseMessage s msg = DispatchResult.silent := by
  intro s msg h
  simp only [ParseMessage]
  by_cases h1 : (!jsonIsString (getObjectItem msg "jsonrpc") ||
      jsonGetString (getObjectItem msg "jsonrpc") != "2.0") = true
  · rw [if_pos h1]
  · rw [if_neg h1]
    by_cases h2 : (!jsonIsString (getObjectItem msg "method")) = true
    · rw [if_pos h2]
    · rw [if_neg h2]
      by_cases h5 : (jsonGetString (getObjectItem msg "method")).startsWith
          "notifications" = true
      · rw [if_pos h5]
      · rw [if_neg h5]
        by_cases h3 : ((getObjectItem msg "params").isSome &&
            !jsonIsObj (getObjectItem msg "params")) = true
        · rw [if_pos h3]
        · rw [if_neg h3]
          by_cases h4 : (!jsonIsNumber (getObjectItem msg "id")) = true
          · rw [if_pos h4]
          · exfalso
            have e1 := Bool.eq_false_iff.mpr h1
            have e2 := Bool.eq_false_iff.mpr h2
            have e3 := Bool.eq_false_iff.mpr h3
            have e4 := Bool.eq_false_iff.mpr h4
            rw [specBadEnvelope, e1, e2, e3, e4] at h
            simp at h

/-- Witness for C6: a message whose `jsonrpc` is `"1.0"` is silently
dropped. -/
theorem claimC6_witness :
    specBadEnvelope exBadMsg = true ∧
    ParseMessage exServer exBadMsg = DispatchResult.silent :=
  ⟨by decide, claimC6 exServer exBadMsg (by decide)⟩

/-- C3 counterexample: with the one-tool registry [A] (far under budget) and
the unknown cursor "zzz", `tools/list` replies with the payload-size error,
not with the successful empty list the claim states. -/
theorem claimC3_counterexample :
    (GetToolsList [exToolA] 1 "zzz" false).1 =
      Reply.error 1 "Failed to add tool  because of payload size limit" ∧
    (GetToolsList [exToolA] 1 "zzz" false).1 ≠
      Reply.result 1 ("\x7b\"tools\":[]\x7d".toList) := by
  have h : (GetToolsList [exToolA] 1 "zzz" false).1 =
      Reply.error 1 "Failed to add tool  because of payload size limit" := by decide
  exact ⟨h, by rw [h]; simp⟩

/-- C3 amended: for a non-empty cursor matching no tool name, `tools/list`
on a NON-empty registry replies with the error
"Failed to add tool  because of payload size limit" (the empty-page error
branch, with an empty tool name in the message), not with a success; only
an empty registry yields the successful empty list with no nextCursor. -/
theorem claimC3_amended : ∀ (ts : List McpTool) (id : Int) (cursor : String)
    (lu : Bool),
    cursor ≠ "" → (∀ t ∈ ts, t.name ≠ cursor) →
    (ts ≠ [] → GetToolsList ts id cursor lu =
      (Reply.error id "Failed to add tool  because of payload size limit", [], "")) ∧
    (ts = [] → GetToolsList ts id cursor lu =
      (Reply.result id ("\x7b\"tools\":[]\x7d".toList), [], "")) := by
  intro ts id cursor lu hc hnames
  have hbeq : (cursor == "") = false := by simp [hc]
  constructor
  · intro hne
    simp only [GetToolsList, hbeq]
    rw [listLoop_no_match cursor lu ts jsonOpen hnames]
    rw [if_neg (by decide : ¬ jsonOpen.getLast? = some ',')]
    rw [if_pos ⟨(by decide : jsonOpen.getLast? = some '['), hne⟩]
    rfl
  · intro hnil
    subst hnil
    rw [GetToolsList_nil,
      (by decide : jsonOpen ++ "]\x7d".toList = "\x7b\"tools\":[]\x7d".toList)]

/-- Witness for C3 (amended): the concrete unknown-cursor call produces the
error reply. -/
theorem claimC3_witness :
    GetToolsList [exToolA] 1 "zzz" false =
      (Reply.error 1 "Failed to add tool  because of payload size limit", [], "") :=
  (claimC3_amended [exToolA] 1 "zzz" false (by decide) (by decide)).1 (by simp)

/-- C2 counterexample: with registry [A, B] and cursor "A" (the first tool's
name), the reply contains tool A itself — the listing resumes AT the named
tool, not strictly after it. -/
theorem claimC2_counterexample :
    (GetToolsList [exToolA, exToolB] 1 "A" false).2.1 = [exToolA, exToolB] ∧
    exToolA ∈ (GetToolsList [exToolA, exToolB] 1 "A" false).2.1 := by
  have h : (GetToolsList [exToolA, exToolB] 1 "A" false).2.1 = [exToolA, exToolB] := by
    decide
  exact ⟨h, by rw [h]; simp⟩

/-- C2 amended: a non-empty cursor equal to the name of the Nth tool resumes
AT that tool (inclusive). Two halves: (i) the reply's tool list is a sublist
of the tools from position N onward — no tool strictly before the Nth can
ever appear; (ii) when the Nth tool passes the visibility filter and the
eligible tools from position N onward are well-formed and fit a fresh
reply's budget, the reply's tool list BEGINS with the Nth tool itself —
inclusive resume, not strictly-after. -/
theorem claimC2_amended : ∀ (ts pre suf : List McpTool) (u : McpTool)
    (id : Int) (lu : Bool),
    ts = pre ++ u :: suf → u.name ≠ "" → (∀ p ∈ pre, p.name ≠ u.name) →
    List.Sublist (GetToolsList ts id u.name lu).2.1 (u :: suf) ∧
    (elig lu u = true →
      (∀ t ∈ u :: suf, elig lu t = true → ToolFits t) →
      ∃ rest, (GetToolsList ts id u.name lu).2.1 = u :: rest) := by
  intro ts pre suf u id lu hts hname hpre
  have hstart := listLoop_start ts pre (u :: suf) u.name lu hts
    (Or.inr ⟨hname, hpre, u, suf, rfl, rfl⟩)
  constructor
  · obtain ⟨nc, inc, heq, hcase⟩ := listLoop_fill u.name lu (u :: suf) jsonOpen
    have hloop : listLoop u.name lu ts (u.name == "") jsonOpen =
        (jsonOpen ++ flatJson inc, nc, inc) := hstart.trans heq
    have hsub : List.Sublist inc (u :: suf) := by
      rcases hcase with ⟨-, hinc⟩ | ⟨s1, w, s2, hsuf, -, -, hinc, -⟩
      · rw [hinc]
        exact List.filter_sublist _
      · rw [hinc]
        exact (List.filter_sublist s1).trans
          (by rw [hsuf]; exact List.sublist_append_left s1 (w :: s2))
    simp only [GetToolsList, hloop]
    split <;> split
    · exact List.nil_sublist _
    · split <;> exact hsub
    · exact List.nil_sublist _
    · split <;> exact hsub
  · intro helig hok
    have hne : ts ≠ [] → ((u :: suf).filter (elig lu)) ≠ [] := by
      intro _
      rw [List.filter_cons_of_pos helig]
      simp
    rcases GetToolsList_onecall ts pre (u :: suf) id u.name lu hts hstart hok hne
      with ⟨payload, heq⟩ | ⟨payload, s1, w, s2, hsuf, -, hfne, heq⟩
    · refine ⟨suf.filter (elig lu), ?_⟩
      rw [heq]
      simp [List.filter_cons_of_pos helig]
    · cases s1 with
      | nil =>
        rw [List.filter_nil] at hfne
        exact absurd rfl hfne
      | cons w0 s1' =>
        have hu : u = w0 := (List.cons.injEq _ _ _ _ ▸ hsuf).1
        refine ⟨s1'.filter (elig lu), ?_⟩
        rw [heq, ← hu]
        simp [List.filter_cons_of_pos helig]

/-- Witness for C2 (amended): with registry [A, B] and cursor "A", the
included tools form a sublist of [A, B], and the reply begins with tool A
itself. -/
theorem claimC2_witness :
    List.Sublist (GetToolsList [exToolA, exToolB] 1 "A" false).2.1
      [exToolA, exToolB] ∧
    ∃ rest, (GetToolsList [exToolA, exToolB] 1 "A" false).2.1 =
      exToolA :: rest :=
  ⟨(claimC2_amended [exToolA, exToolB] [] [exToolB] exToolA 1 false rfl
      (by decide) (by simp)).1,
   (claimC2_amended [exToolA, exToolB] [] [exToolB] exToolA 1 false rfl
      (by decide) (by simp)).2 rfl (by decide)⟩

/-- C4 counterexample: calling the volume tool with empty arguments yields
the error message "Missing valid argument: volume" — with a capital M, not
the lowercase "missing valid argument: volume" the claim states. -/
theorem claimC4_counterexample :
    DoToolCall [exToolVolume] 1 "set_volume" (some (Json.obj [])) =
      CallOutcome.replyError 1 "Missing valid argument: volume" ∧
    DoToolCall [exToolVolume] 1 "set_volume" (some (Json.obj [])) ≠
      CallOutcome.replyError 1 "missing valid argument: volume" := by
  have h : DoToolCall [exToolVolume] 1 "set_volume" (some (Json.obj [])) =
      CallOutcome.replyError 1 "Missing valid argument: volume" := by decide
  exact ⟨h, by rw [h]; decide⟩

/-- C4 amended: when a registered tool has a schema property with no default
and the caller's arguments contain no entry of the exactly matching wire
type for its name, the call is never scheduled onto the execution context
(the handler never runs), and — provided every earlier property binds
without raising — the error reply carries the message
"Missing valid argument: <name>" (capital M) for the first such property. -/
theorem claimC4_amended : ∀ (ts : List McpTool) (id : Int) (n : String)
    (args : Option Json) (tool : McpTool) (p1s : List Property) (p : Property)
    (p2s : List Property),
    ts.find? (fun t => t.name == n) = some tool →
    tool.properties = p1s ++ p :: p2s →
    p.has_default_value = false →
    hasWireMatch args p = false →
    (DoToolCall ts id n args).isScheduled = false ∧
    ((∀ q ∈ p1s, ∃ q', bindProperty args q = Except.ok q') →
      DoToolCall ts id n args =
        CallOutcome.replyError id ("Missing valid argument: " ++ p.name)) := by
  intro ts id n args tool p1s p p2s hfind hprops hdef hmatch
  have hbp : bindProperty args p =
      Except.error ("Missing valid argument: " ++ p.name) := by
    rw [bindProperty_no_match args p hmatch, if_neg (by simp [hdef])]
  constructor
  · simp only [DoToolCall, hfind]
    cases hb : bindAll args tool.properties with
    | error e => simp [CallOutcome.isScheduled]
    | ok l' =>
      exfalso
      obtain ⟨q', hq⟩ := bindAll_ok_mem args tool.properties l' hb p
        (by rw [hprops]; exact List.mem_append_right _ (List.mem_cons_self _ _))
      rw [hbp] at hq
      exact absurd hq (by simp)
  · intro h1
    obtain ⟨b1s, hb1, -⟩ := bindAll_ok_forall args p1s h1
    have hball : bindAll args tool.properties =
        Except.error ("Missing valid argument: " ++ p.name) := by
      rw [hprops, bindAll_append args p1s (p :: p2s) b1s hb1,
        bindAll_cons_error args p p2s _ hbp]
      rfl
    simp [DoToolCall, hfind, hball]

/-- Witness for C4 (amended) at the concrete volume tool and empty
arguments object. -/
theorem claimC4_witness :
    (DoToolCall [exToolVolume] 1 "set_volume" (some (Json.obj []))).isScheduled =
      false ∧
    DoToolCall [exToolVolume] 1 "set_volume" (some (Json.obj [])) =
      CallOutcome.replyError 1 ("Missing valid argument: " ++ exPropVolume.name) :=
  ⟨(claimC4_amended [exToolVolume] 1 "set_volume" (some (Json.obj []))
      exToolVolume [] exPropVolume [] rfl rfl rfl (by decide)).1,
   (claimC4_amended [exToolVolume] 1 "set_volume" (some (Json.obj []))
      exToolVolume [] exPropVolume [] rfl rfl rfl (by decide)).2
      (by intro q hq; simp at hq)⟩

/-- C5: a wrong-typed argument for a defaulted property is treated as absent
and never coerced: that property binds to itself unchanged (no error for
it), its effective value is the default, and — when every other property
binds — the call is scheduled with the property still carrying its default
for the handler. -/
theorem claimC5 : ∀ (ts : List McpTool) (id : Int) (n : String)
    (fields : List (String × Json)) (v : Json) (tool : McpTool)
    (p1s : List Property) (p : Property) (p2s : List Property) (d : PropValue),
    ts.find? (fun t => t.name == n) = some tool →
    tool.properties = p1s ++ p :: p2s →
    p.defaultValue = some d →
    p.value = none →
    jsonLookup fields p.name = some v →
    hasWireMatch (some (Json.obj fields)) p = false →
    (bindProperty (some (Json.obj fields)) p = Except.ok p ∧
      p.effectiveValue = some d) ∧
    ((∀ q ∈ p1s, ∃ q', bindProperty (some (Json.obj fields)) q = Except.ok q') →
     (∀ q ∈ p2s, ∃ q', bindProperty (some (Json.obj fields)) q = Except.ok q') →
     ∃ b1s b2s, DoToolCall ts id n (some (Json.obj fields)) =
         CallOutcome.scheduled id tool.name (b1s ++ p :: b2s) ∧
       b1s.length = p1s.length) := by
  intro ts id n fields v tool p1s p p2s d hfind hprops hdef hval hlook hmatch
  have hdefb : p.has_default_value = true := by
    simp [Property.has_default_value, hdef]
  have hbp : bindProperty (some (Json.obj fields)) p = Except.ok p := by
    rw [bindProperty_no_match _ p hmatch, if_pos hdefb]
  refine ⟨⟨hbp, by simp [Property.effectiveValue, hval, hdef]⟩, ?_⟩
  intro h1 h2
  obtain ⟨b1s, hb1, hlen1⟩ := bindAll_ok_forall _ p1s h1
  obtain ⟨b2s, hb2, -⟩ := bindAll_ok_forall _ p2s h2
  refine ⟨b1s, b2s, ?_, hlen1⟩
  have hmid : bindAll (some (Json.obj fields)) (p :: p2s) = Except.ok (p :: b2s) := by
    simp [bindAll, hbp, hb2, bind, Except.bind]
  have hball : bindAll (some (Json.obj fields)) tool.properties =
      Except.ok (b1s ++ p :: b2s) := by
    rw [hprops, bindAll_append _ p1s (p :: p2s) b1s hb1, hmid]
    rfl
  simp [DoToolCall, hfind, hball]

/-- Witness for C5: the quality tool called with a string for the integer
`quality` property binds the default 80 and is scheduled. -/
theorem claimC5_witness :
    (bindProperty (some (Json.obj [("quality", Json.str "high")])) exPropQuality =
        Except.ok exPropQuality ∧
      exPropQuality.effectiveValue = some (PropValue.vInt 80)) ∧
    ∃ b1s b2s,
      DoToolCall [exToolQuality] 1 "snap"
          (some (Json.obj [("quality", Json.str "high")])) =
        CallOutcome.scheduled 1 exToolQuality.name (b1s ++ exPropQuality :: b2s) ∧
      b1s.length = 0 := by
  have h := claimC5 [exToolQuality] 1 "snap" [("quality", Json.str "high")]
    (Json.str "high") exToolQuality [] exPropQuality [] (PropValue.vInt 80)
    rfl rfl rfl rfl rfl (by decide)
  exact ⟨h.1, by simpa using h.2 (by simp) (by simp)⟩

/-- C1 amended: with well-formed serializations (non-empty JSON objects not
ending in `'['`), distinct non-empty names, and non-user-only A, B, C where
A and B together fit the budget but adding C overflows it and C alone fits:
`tools/list("")` returns exactly A and B with nextCursor C (C's
serialization is not included), and `tools/list(C)` returns exactly C with
no nextCursor. Moreover, for every registry with distinct non-empty names
whose non-filtered tools each fit a fresh reply's budget and (when the
registry is non-empty) at least one tool passes the filter, chaining
cursors enumerates every non-filtered tool exactly once, with nextCursor
omitted on the exhausting call. -/
theorem claimC1_amended :
    (∀ (A B C : McpTool) (id : Int),
      A.userOnly = false → B.userOnly = false → C.userOnly = false →
      A.toJson ≠ [] → A.toJson.getLast? ≠ some '[' →
      B.toJson ≠ [] → B.toJson.getLast? ≠ some '[' →
      C.toJson ≠ [] → C.toJson.getLast? ≠ some '[' →
      A.name ≠ C.name → B.name ≠ C.name → C.name ≠ "" →
      jsonOpen.length + (A.toJson ++ [',']).length + (B.toJson ++ [',']).length +
        30 ≤ maxPayloadSize →
      jsonOpen.length + (A.toJson ++ [',']).length + (B.toJson ++ [',']).length +
        (C.toJson ++ [',']).length + 30 > maxPayloadSize →
      jsonOpen.length + (C.toJson ++ [',']).length + 30 ≤ maxPayloadSize →
      GetToolsList [A, B, C] id "" false =
        (Reply.result id (jsonOpen ++ A.toJson ++ [','] ++ B.toJson ++
          "],\"nextCursor\":\"".toList ++ C.name.toList ++ "\"\x7d".toList),
         [A, B], C.name) ∧
      GetToolsList [A, B, C] id C.name false =
        (Reply.result id (jsonOpen ++ C.toJson ++ "]\x7d".toList), [C], "")) ∧
    (∀ (ts : List McpTool) (lu : Bool) (id : Int),
      (ts.map McpTool.name).Nodup →
      (∀ t ∈ ts, elig lu t = true → ToolFits t) →
      (∀ t ∈ ts, t.name ≠ "") →
      (ts ≠ [] → ∃ t ∈ ts, elig lu t = true) →
      chainCalls ts lu id (ts.length + 1) "" = some (ts.filter (elig lu))) := by
  constructor
  · intro A B C id hAu hBu hCu hAne hAlast hBne hBlast hCne hClast hAC hBC hCn
      hAB hABC hCfit
    have hskipA : (!false && A.userOnly) = false := by simp [hAu]
    have hskipB : (!false && B.userOnly) = false := by simp [hBu]
    have hskipC : (!false && C.userOnly) = false := by simp [hCu]
    have hfitA : ¬ jsonOpen.length + (A.toJson ++ [',']).length + 30 >
        maxPayloadSize := by
      simp only [List.length_append] at hAB ⊢
      omega
    have hfitB : ¬ (jsonOpen ++ (A.toJson ++ [','])).length +
        (B.toJson ++ [',']).length + 30 > maxPayloadSize := by
      simp only [List.length_append] at hAB ⊢
      omega
    have hoverC : (jsonOpen ++ (A.toJson ++ [',']) ++ (B.toJson ++ [','])).length +
        (C.toJson ++ [',']).length + 30 > maxPayloadSize := by
      simp only [List.length_append] at hABC ⊢
      omega
    have hfitC : ¬ jsonOpen.length + (C.toJson ++ [',']).length + 30 >
        maxPayloadSize := by
      simp only [List.length_append] at hCfit ⊢
      omega
    constructor
    · -- tools/list("") : [A, B] with nextCursor C
      have hloop : listLoop "" false [A, B, C] true jsonOpen =
          ((jsonOpen ++ A.toJson ++ [','] ++ B.toJson) ++ [','], C.name, [A, B]) := by
        rw [listLoop_cons_add "" false A [B, C] jsonOpen hskipA hfitA,
          listLoop_cons_add "" false B [C] _ hskipB hfitB,
          listLoop_cons_overflow "" false C [] _ hskipC hoverC]
        simp [List.append_assoc]
      simp only [GetToolsList]
      rw [show (("" : String) == "") = true from rfl, hloop]
      rw [if_pos (List.getLast?_concat _), List.dropLast_concat]
      rw [if_neg (fun hc => absurd hc.1 (by
        rw [show jsonOpen ++ A.toJson ++ [','] ++ B.toJson =
            (jsonOpen ++ A.toJson ++ [',']) ++ B.toJson from by
          simp [List.append_assoc]]
        rw [List.getLast?_append_of_ne_nil _ hBne]
        exact hBlast))]
      rw [if_neg (by simp [hCn] : ¬ (C.name == "") = true)]
    · -- tools/list(C) : [C] with no nextCursor
      have hpre : ∀ p ∈ [A, B], p.name ≠ C.name := by
        intro p hp
        rcases List.mem_cons.mp hp with rfl | hp'
        · exact hAC
        · rcases List.mem_cons.mp hp' with rfl | hp''
          · exact hBC
          · simp at hp''
      have hloop2 : listLoop C.name false [A, B, C] false jsonOpen =
          ((jsonOpen ++ C.toJson) ++ [','], "", [C]) := by
        rw [show [A, B, C] = [A, B] ++ [C] from rfl,
          listLoop_skip C.name false [A, B] [C] jsonOpen hpre,
          listLoop_enter C.name false C [] jsonOpen rfl,
          listLoop_cons_add C.name false C [] jsonOpen hskipC hfitC]
        simp [listLoop, List.append_assoc]
      simp only [GetToolsList]
      rw [show (C.name == "") = false from by simp [hCn], hloop2]
      rw [if_pos (List.getLast?_concat _), List.dropLast_concat]
      rw [if_neg (fun hc => absurd hc.1 (by
        rw [List.getLast?_append_of_ne_nil _ hCne]
        exact hClast))]
      rw [if_pos (show (("" : String) == "") = true from rfl)]
  · intro ts lu id hnodup hok hnames hne
    apply chainCalls_suffix ts lu id hnodup hok hnames (ts.length + 1) [] ts ""
      rfl (by omega)
    left
    refine ⟨rfl, rfl, fun hne' => ?_⟩
    obtain ⟨t, ht, he⟩ := hne hne'
    exact List.ne_nil_of_mem (List.mem_filter.mpr ⟨ht, he⟩)

theorem replicate_pos_ne_nil {α : Type} (n : Nat) (a : α) (h : 0 < n) :
    List.replicate n a ≠ [] := by
  intro hc
  have hlen := congrArg List.length hc
  simp only [List.length_replicate, List.length_nil] at hlen
  omega

theorem replicate_getLast?_ne {α : Type} (n : Nat) (a b : α) (hab : b ≠ a) :
    (List.replicate n a).getLast? ≠ some b := by
  intro h
  rcases hn : List.replicate n a with _ | ⟨x, xs⟩
  · rw [hn] at h
    simp at h
  · rw [hn, List.getLast?_eq_getLast_of_ne_nil (by simp)] at h
    have hb : b ∈ x :: xs := by
      rw [← Option.some_inj.mp h]
      exact List.getLast_mem (by simp)
    rw [← hn] at hb
    exact hab (List.eq_of_mem_replicate hb)

theorem exToolCBig_overflows :
    jsonOpen.length + (exToolCBig.toJson ++ [',']).length + 30 > maxPayloadSize := by
  have h2 : (exToolCBig.toJson ++ [',']).length = 7961 := by
    rw [show exToolCBig.toJson = exBigJson from rfl, exBigJson, List.length_append,
      List.length_replicate]
    decide
  rw [(by decide : jsonOpen.length = 10), h2]
  decide

theorem GetToolsList_CBig_error :
    GetToolsList [exToolA, exToolB, exToolCBig] 1 "C" false =
      (Reply.error 1 "Failed to add tool C because of payload size limit",
       [], "C") := by
  have hloop : listLoop "C" false [exToolA, exToolB, exToolCBig] false jsonOpen =
      (jsonOpen, "C", []) := by
    rw [show [exToolA, exToolB, exToolCBig] = [exToolA, exToolB] ++ [exToolCBig]
        from rfl,
      listLoop_skip "C" false [exToolA, exToolB] [exToolCBig] jsonOpen (by decide),
      listLoop_enter "C" false exToolCBig [] jsonOpen rfl,
      listLoop_cons_overflow "C" false exToolCBig [] jsonOpen rfl
        exToolCBig_overflows]
    rfl
  simp only [GetToolsList]
  rw [show (("C" : String) == "") = false from rfl, hloop]
  rw [if_neg (by decide : ¬ jsonOpen.getLast? = some ',')]
  rw [if_pos ⟨(by decide : jsonOpen.getLast? = some '['), by simp⟩]
  rfl

/-- C1 counterexample: tools A, B, C where A and B together fit the budget
and adding C would exceed it (the claim's stated premises), yet
`tools/list("C")` is an error reply, not the claimed `{tools:[C]}` — because
C's serialization alone cannot fit a reply. -/
theorem claimC1_counterexample :
    jsonOpen.length + (exToolA.toJson ++ [',']).length +
      (exToolB.toJson ++ [',']).length + 30 ≤ maxPayloadSize ∧
    jsonOpen.length + (exToolA.toJson ++ [',']).length +
      (exToolB.toJson ++ [',']).length + (exToolCBig.toJson ++ [',']).length +
      30 > maxPayloadSize ∧
    (GetToolsList [exToolA, exToolB, exToolCBig] 1 "C" false).1 =
      Reply.error 1 "Failed to add tool C because of payload size limit" ∧
    (GetToolsList [exToolA, exToolB, exToolCBig] 1 "C" false).1 ≠
      Reply.result 1 (jsonOpen ++ exToolCBig.toJson ++ "]\x7d".toList) := by
  refine ⟨by decide, ?_, ?_, ?_⟩
  · rw [show (exToolCBig.toJson ++ [',']).length = 7961 from by
      rw [show exToolCBig.toJson = exBigJson from rfl, exBigJson,
        List.length_append, List.length_replicate]
      decide]
    decide
  · rw [GetToolsList_CBig_error]
  · rw [GetToolsList_CBig_error]
    simp

/-- Witness for C1 (amended): with A, B small and C sized so that A+B fit,
A+B+C overflow, and C alone fits, both listing calls produce exactly the
claimed pages, and chaining over the registry [A, B] enumerates both tools
in one page. -/
theorem claimC1_witness :
    (GetToolsList [exToolA, exToolB, exToolCMid] 1 "" false =
      (Reply.result 1 (jsonOpen ++ exToolA.toJson ++ [','] ++ exToolB.toJson ++
        "],\"nextCursor\":\"".toList ++ exToolCMid.name.toList ++ "\"\x7d".toList),
       [exToolA, exToolB], exToolCMid.name) ∧
     GetToolsList [exToolA, exToolB, exToolCMid] 1 exToolCMid.name false =
      (Reply.result 1 (jsonOpen ++ exToolCMid.toJson ++ "]\x7d".toList),
       [exToolCMid], "")) ∧
    chainCalls [exToolA, exToolB] false 1 3 "" = some [exToolA, exToolB] := by
  have hCMlen : (exToolCMid.toJson ++ [',']).length = 7956 := by
    rw [show exToolCMid.toJson = List.replicate 7955 'x' from rfl,
      List.length_append, List.length_replicate]
    decide
  constructor
  · exact claimC1_amended.1 exToolA exToolB exToolCMid 1 rfl rfl rfl
      (by decide) (by decide) (by decide) (by decide)
      (replicate_pos_ne_nil 7955 'x' (by decide))
      (replicate_getLast?_ne 7955 'x' '[' (by decide))
      (by decide) (by decide) (by decide)
      (by decide)
      (by rw [hCMlen, (by decide : jsonOpen.length = 10),
            (by decide : (exToolA.toJson ++ [',']).length = 4),
            (by decide : (exToolB.toJson ++ [',']).length = 4)]
          decide)
      (by rw [hCMlen, (by decide : jsonOpen.length = 10)]
          decide)
  · have h3 : chainCalls [exToolA, exToolB] false 1 3 "" =
        some (List.filter (elig false) [exToolA, exToolB]) :=
      claimC1_amended.2 [exToolA, exToolB] false 1 (by decide)
        (by decide) (by decide) (fun _ => ⟨exToolA, by simp, rfl⟩)
    rw [h3]
    decide
